import Mathlib

/-!
Verification of the DVector ring-vector (src/Dvector/dvector.h).

The container is embedded shallowly:
* raw pointers into the storage block become Nat offsets from the
  storage base (so pointer comparisons become Nat comparisons, and a
  null pointer is offset 0 together with the allocated flag false);
* the storage block of capacity + 1 slots becomes a list of Option
  values, a slot holding none when it is uninitialized or destroyed
  and some x when a T with value x is constructed in it;
* the pluggable allocator becomes an oracle saying which allocation
  attempt fails, together with counters of successful allocate and
  deallocate calls (mirroring the repository TestAllocator state);
* a C++ exception escaping an operation becomes an Option Err result
  component, returned together with the state the object has at the
  moment the exception escapes.
-/

/-- Exceptions that the DVector operations can let escape:
the allocator out-of-memory condition (std::bad_alloc), the
empty-container error thrown by the checked layer
(std::runtime_error), and an element copy constructor throwing. -/
inductive Err where
  | badAlloc
  | emptyVec
  | elemCopy
deriving DecidableEq, Repr

/-- The enum class at of dvector.h, selecting the push or pop direction. -/
inductive At where
  | front
  | back
deriving DecidableEq, Repr

/-- Allocator model: fails says which allocation attempt (counted over
successful and failed attempts alike) throws bad_alloc; calls counts
successful allocate calls, frees counts deallocate calls, failed counts
failed allocate calls, mirroring TestAllocator state in the test file. -/
structure Alloc where
  fails : Nat → Bool
  calls : Nat
  frees : Nat
  failed : Nat

/-- Allocator.allocate: returns the updated allocator on success,
none on out-of-memory.  The block itself carries no identity in the
model; reallocate builds the fresh slot list. -/
def Alloc.allocate (a : Alloc) : Option Alloc :=
  if a.fails (a.calls + a.failed) then none
  else some { a with calls := a.calls + 1 }

/-- The DVector Iterator (dvector.h lines 531-637): a current raw
position plus the storage bounds, all as offsets from the storage
base, so storage_begin is 0 for every iterator made by the container. -/
structure Iterator where
  current : Nat
  storage_begin : Nat
  storage_end : Nat
deriving DecidableEq, Repr

/-- Iterator prefix increment: advance one slot, wrapping to
storage_begin when the position reaches storage_end. -/
def Iterator.inc (it : Iterator) : Iterator :=
  if it.current + 1 ≥ it.storage_end then { it with current := it.storage_begin }
  else { it with current := it.current + 1 }

/-- Iterator prefix decrement: retreat one slot; when the position
would go below storage_begin (offset arithmetic: when it is already at
or below storage_begin) it wraps to storage_end - 1. -/
def Iterator.dec (it : Iterator) : Iterator :=
  if it.current ≤ it.storage_begin then { it with current := it.storage_end - 1 }
  else { it with current := it.current - 1 }

/-- n applications of Iterator.inc (advancing a bidirectional iterator
by n steps, as std::next or the test helper slownext do). -/
def Iterator.advance (it : Iterator) : Nat → Iterator
  | 0 => it
  | k + 1 => (it.advance k).inc

/-- n applications of Iterator.dec (retreating by n steps, as
std::prev or the test helper slowprev do). -/
def Iterator.retreat (it : Iterator) : Nat → Iterator
  | 0 => it
  | k + 1 => (it.retreat k).dec

/-- The DVector container state: the six data members of dvector.h
lines 387-394.  slots is the content of the owned storage block
(capacity + 1 slots when allocated); beginP and endP are the offsets
of the begin and end members from storage_begin; allocated records
whether storage_begin is a non-null pointer. -/
structure DVector (T : Type) where
  slots : List (Option T)
  beginP : Nat
  endP : Nat
  capacity : Nat
  size : Nat
  allocated : Bool
deriving Repr

/-- The default-constructed DVector: no storage, all members zero/null. -/
def dvNew {T : Type} : DVector T :=
  ⟨[], 0, 0, 0, 0, false⟩

namespace DVector

variable {T : Type}

/-- The logical region of the container read out in order: the wrapped
case moves first the segment from begin to storage_end and then the
segment from storage_begin to end, exactly as reallocate and iteration
traverse it. -/
def regionList (v : DVector T) : List (Option T) :=
  if v.beginP > v.endP then v.slots.drop v.beginP ++ v.slots.take v.endP
  else (v.slots.drop v.beginP).take (v.endP - v.beginP)

/-- Destroys (sets to none) every slot with position in the interval
from lo inclusive to hi exclusive, modelling std::destroy. -/
def destroyRange (slots : List (Option T)) (lo hi : Nat) : List (Option T) :=
  slots.mapIdx fun p s => if lo ≤ p ∧ p < hi then none else s

/-- DVector::clear (dvector.h lines 268-275): destroys the slots of the
logical region, in two segments when the region wraps.  Note that the
source never resets the size, begin or end members here. -/
def clear (v : DVector T) : DVector T :=
  if v.beginP > v.endP then
    { v with slots := destroyRange (destroyRange v.slots v.beginP v.slots.length) 0 v.endP }
  else
    { v with slots := destroyRange v.slots v.beginP v.endP }

/-- DVector::_reallocate (dvector.h lines 402-419): allocates n + 1
slots first (propagating allocator failure with the state untouched),
then moves the logical region to the front of the new block, frees the
old block when there was one, and resets the members with begin at the
storage base and end at begin + size. -/
def reallocate (a : Alloc) (v : DVector T) (n : Nat) : Alloc × DVector T × Option Err :=
  match a.allocate with
  | none => ({ a with failed := a.failed + 1 }, v, some Err.badAlloc)
  | some a1 =>
    let moved : List (Option T) := if v.allocated then regionList v else []
    let a2 := if v.allocated then { a1 with frees := a1.frees + 1 } else a1
    (a2,
      { slots := moved ++ List.replicate (n + 1 - moved.length) none,
        beginP := 0, endP := v.size, capacity := n, size := v.size, allocated := true },
      none)

/-- DVector::reserve (dvector.h lines 304-307): grows via reallocate
when n exceeds the capacity, otherwise does nothing. -/
def reserve (a : Alloc) (v : DVector T) (n : Nat) : Alloc × DVector T × Option Err :=
  if n > v.capacity then reallocate a v n else (a, v, none)

/-- The insertion half of DVector::_push (dvector.h lines 438-447),
after the growth check: the bound is adjusted (with wraparound) before
the placement construction, so when the element constructor throws
(createOk = false) the bound has already moved but the slot is not
constructed and size is not incremented. -/
def pushAt (createOk : Bool) (a : Alloc) (v : DVector T) (val : T) (w : At) :
    Alloc × DVector T × Option Err :=
  match w with
  | At.front =>
    let b0 := if v.beginP = 0 then v.slots.length else v.beginP
    if createOk then
      (a, { v with beginP := b0 - 1, slots := v.slots.set (b0 - 1) (some val),
                   size := v.size + 1 }, none)
    else
      (a, { v with beginP := b0 - 1 }, some Err.elemCopy)
  | At.back =>
    let e0 := if v.endP = v.slots.length then 0 else v.endP
    if createOk then
      (a, { v with endP := e0 + 1, slots := v.slots.set e0 (some val),
                   size := v.size + 1 }, none)
    else
      (a, { v with endP := e0 + 1 }, some Err.elemCopy)

/-- DVector::_push (dvector.h lines 431-448): when size equals capacity
it reallocates to 10 on first growth and to twice the capacity
otherwise, propagating allocation failure unchanged; then it inserts at
the requested side.  createOk models whether the element constructor
invoked by _create succeeds. -/
def pushDir (createOk : Bool) (a : Alloc) (v : DVector T) (val : T) (w : At) :
    Alloc × DVector T × Option Err :=
  match (if v.size = v.capacity
         then reallocate a v (if v.capacity = 0 then 10 else v.capacity * 2)
         else (a, v, none)) with
  | (a1, v1, some e) => (a1, v1, some e)
  | (a1, v1, none) => pushAt createOk a1 v1 val w

/-- DVector::push_back. -/
def push_back (a : Alloc) (v : DVector T) (val : T) : Alloc × DVector T × Option Err :=
  pushDir true a v val At.back

/-- DVector::push_front. -/
def push_front (a : Alloc) (v : DVector T) (val : T) : Alloc × DVector T × Option Err :=
  pushDir true a v val At.front

/-- DVector::_pop (dvector.h lines 477-488): destroys the element at
the popped side, moving the bound with wraparound, and decrements size.
Unchecked, as in the source; the checked wrappers guard emptiness. -/
def popDir (v : DVector T) (w : At) : DVector T :=
  match w with
  | At.front =>
    let s1 := v.slots.set v.beginP none
    let b1 := v.beginP + 1
    { v with slots := s1, beginP := if b1 = v.slots.length then 0 else b1,
             size := v.size - 1 }
  | At.back =>
    let e0 := if v.endP = 0 then v.slots.length else v.endP
    { v with slots := v.slots.set (e0 - 1) none, endP := e0 - 1, size := v.size - 1 }

/-- DVector::pop_front (dvector.h lines 223-226): _check then _pop;
on an empty container the runtime error escapes before any mutation. -/
def pop_front (v : DVector T) : DVector T × Option Err :=
  if v.size = 0 then (v, some Err.emptyVec) else (popDir v At.front, none)

/-- DVector::pop_back (dvector.h lines 234-237). -/
def pop_back (v : DVector T) : DVector T × Option Err :=
  if v.size = 0 then (v, some Err.emptyVec) else (popDir v At.back, none)

/-- DVector iterator factory begin() (dvector.h line 327): current
position is the begin member; bounds are the storage bounds. -/
def beginIt (v : DVector T) : Iterator :=
  ⟨v.beginP, 0, v.slots.length⟩

/-- DVector iterator factory end() (dvector.h line 348). -/
def endIt (v : DVector T) : Iterator :=
  ⟨v.endP, 0, v.slots.length⟩

/-- DVector::front (dvector.h lines 179-182): _check then dereference
of begin(). -/
def front (v : DVector T) : Except Err (Option T) :=
  if v.size = 0 then Except.error Err.emptyVec
  else Except.ok (v.slots.getD (beginIt v).current none)

/-- DVector::back (dvector.h lines 201-204): _check then dereference of
the decremented end() iterator. -/
def back (v : DVector T) : Except Err (Option T) :=
  if v.size = 0 then Except.error Err.emptyVec
  else Except.ok (v.slots.getD ((endIt v).dec).current none)

/-- DVector::_reference (dvector.h lines 497-502), the unchecked
operator[] position computation: begin + x, wrapped past storage_end
to the storage base when the region wraps and begin + x crosses the
storage end. -/
def referenceOp (v : DVector T) (x : Nat) : Option T :=
  if v.beginP > v.endP ∧ v.beginP + x ≥ v.slots.length then
    v.slots.getD (v.beginP + x - v.slots.length) none
  else
    v.slots.getD (v.beginP + x) none

/-- Value-constructs (some default) every slot with position in the
interval from lo inclusive to lo + count exclusive, modelling
std::uninitialized_value_construct; writes past the storage block are
undefined behaviour in the source and are dropped here. -/
def constructRange [Inhabited T] (slots : List (Option T)) (lo count : Nat) :
    List (Option T) :=
  slots.mapIdx fun p s => if lo ≤ p ∧ p < lo + count then some (default : T) else s

/-- 2 to the 64th: the modulus of the uint64_t arithmetic used by
DVector::resize for its diff variable. -/
def UINT64 : Nat := 2 ^ 64

/-- k iterations of the checked pop_back, propagating its error;
this is the loop in the shrink branch of DVector::resize. -/
def popBackN (a : Alloc) (v : DVector T) : Nat → Alloc × DVector T × Option Err
  | 0 => (a, v, none)
  | k + 1 =>
    match pop_back v with
    | (v1, some e) => (a, v1, some e)
    | (v1, none) => popBackN a v1 k

/-- DVector::resize (dvector.h lines 284-296): reallocate when n
exceeds capacity (propagating failure untouched); then
diff = n - size computed in uint64_t arithmetic; when diff is nonzero
the code takes the construct branch (value-construct diff slots from
end and advance end), and only when diff is exactly zero it reaches the
pop loop, which then runs (2 to the 64th minus diff) mod 2 to the 64th,
that is zero, iterations.  The source never assigns the size member. -/
def resize [Inhabited T] (a : Alloc) (v : DVector T) (n : Nat) :
    Alloc × DVector T × Option Err :=
  match (if n > v.capacity then reallocate a v n else (a, v, none)) with
  | (a1, v1, some e) => (a1, v1, some e)
  | (a1, v1, none) =>
    let diff := (UINT64 + n - v1.size) % UINT64
    if diff > 0 then
      (a1, { v1 with slots := constructRange v1.slots v1.endP diff,
                     endP := v1.endP + diff }, none)
    else
      popBackN a1 v1 ((UINT64 - diff) % UINT64)

/-- DVector::swap (dvector.h lines 314-322): exchanges the six data
members of the two containers, hence exchanges the records. -/
def swapOp (v o : DVector T) : DVector T × DVector T :=
  (o, v)

/-- DVector::_deallocate (dvector.h lines 507-512) restricted to its
allocator effect: when the storage pointer is non-null it destroys the
elements and frees the block (one deallocate call).  Every caller
either discards or overwrites the deallocated object state, so only
the allocator counter is returned. -/
def deallocateOp (a : Alloc) (v : DVector T) : Alloc :=
  if v.allocated then { a with frees := a.frees + 1 } else a

/-- DVector move constructor (dvector.h lines 92-95): default-construct
then swap with the source, so the new object takes the source's six
members and the source becomes the default state; no allocator call. -/
def moveCtor (o : DVector T) : DVector T × DVector T :=
  swapOp dvNew o

/-- DVector move assignment (dvector.h lines 117-132): first
_deallocate of the destination's own storage, then member-wise transfer
of the source's six members, then the source members are nulled. -/
def moveAssign (a : Alloc) (v o : DVector T) : Alloc × DVector T × DVector T :=
  (deallocateOp a v, o, dvNew)

/-- The loop body of the DVector copy constructor: push_back a copy of
each element of the source region in order; copying the k-th element
fails when ec k is true, and the failure escapes at once. -/
def copyPushLoop [Inhabited T] (ec : Nat → Bool) (a : Alloc) (v : DVector T) (k : Nat) :
    List (Option T) → Alloc × DVector T × Option Err
  | [] => (a, v, none)
  | s :: rest =>
    match pushDir (! ec k) a v (s.getD default) At.back with
    | (a1, v1, some e) => (a1, v1, some e)
    | (a1, v1, none) => copyPushLoop ec a1 v1 (k + 1) rest

/-- DVector copy constructor (dvector.h lines 81-85): default state,
then reserve(o.size()), then push_back of every element of o in
iteration order (which visits exactly the logical region in order). -/
def copyCtor [Inhabited T] (ec : Nat → Bool) (a : Alloc) (o : DVector T) :
    Alloc × DVector T × Option Err :=
  match reserve a dvNew o.size with
  | (a1, v1, some e) => (a1, v1, some e)
  | (a1, v1, none) => copyPushLoop ec a1 v1 0 (regionList o)

/-- DVector copy assignment (dvector.h lines 104-108), the copy and
swap idiom: build the temporary copy of o; when that throws, the
exception escapes and this is untouched; otherwise swap this with the
temporary, whose destructor then frees the storage this owned before. -/
def copyAssign [Inhabited T] (ec : Nat → Bool) (a : Alloc) (v o : DVector T) :
    Alloc × DVector T × Option Err :=
  match copyCtor ec a o with
  | (a1, _, some e) => (a1, v, some e)
  | (a1, tmp, none) =>
    match swapOp v tmp with
    | (v1, tmp1) => (deallocateOp a1 tmp1, v1, none)

/-- Whether position p of the storage block lies in the logical region
of v, the region being read circularly when begin exceeds end. -/
def inRegion (v : DVector T) (p : Nat) : Bool :=
  if v.beginP > v.endP then decide (v.beginP ≤ p) || decide (p < v.endP)
  else decide (v.beginP ≤ p) && decide (p < v.endP)

/-- The container invariants of spec section 3 in the form claimed:
size bounded by capacity; exactly the slots of the logical region are
constructed; capacity zero forces the unallocated null state. -/
def DVInv (v : DVector T) : Prop :=
  v.size ≤ v.capacity ∧
  (∀ p, p < v.slots.length → (v.slots.getD p none).isSome = inRegion v p) ∧
  (v.capacity = 0 → v.allocated = false ∧ v.slots.length = 0)

instance (v : DVector T) : Decidable (DVInv v) := by
  unfold DVInv
  infer_instance

end DVector

/-- An allocator whose every allocation succeeds, with zeroed counters. -/
def okAlloc : Alloc :=
  ⟨fun _ => false, 0, 0, 0⟩

/-- An allocator whose every allocation fails, with zeroed counters. -/
def failAlloc : Alloc :=
  ⟨fun _ => true, 0, 0, 0⟩

/-- The container produced by one push_back of 42 on a fresh
DVector of Nat: capacity 10, one element at position 0. -/
def dvOne : DVector Nat :=
  (DVector.push_back okAlloc dvNew 42).2.1

/-- The container produced by push_back 1 then push_back 2 on a fresh
DVector of Nat. -/
def dvTwo : DVector Nat :=
  (DVector.push_back okAlloc (DVector.push_back okAlloc dvNew 1).2.1 2).2.1

/-- A container whose logical region wraps: push_front 10 then
push_back 20 then push_back 30, giving begin 10, end 2 in an
11-slot block. -/
def dvWrap : DVector Nat :=
  (DVector.push_back okAlloc
    (DVector.push_back okAlloc (DVector.push_front okAlloc dvNew 10).2.1 20).2.1 30).2.1

/-! Helper lemmas about the iterator wraparound arithmetic. -/

/-- One increment from a position inside the storage region moves the
current position to its successor modulo the storage length. -/
theorem Iterator.inc_spec (it : Iterator) (hsb : it.storage_begin = 0)
    (hc : it.current < it.storage_end) :
    it.inc = ⟨(it.current + 1) % it.storage_end, 0, it.storage_end⟩ := by
  obtain ⟨c, sb, se⟩ := it
  simp only at hsb hc
  subst hsb
  unfold Iterator.inc
  by_cases hcase : c + 1 ≥ se
  · have h1 : c + 1 = se := by omega
    simp [hcase, h1, Nat.mod_self]
  · simp [hcase, Nat.mod_eq_of_lt (by omega : c + 1 < se)]

/-- One decrement from a position at or inside the storage region
moves the current position back by one modulo the storage length,
written additively as adding the storage length minus one. -/
theorem Iterator.dec_spec (it : Iterator) (hsb : it.storage_begin = 0)
    (hse : 0 < it.storage_end) (hc : it.current ≤ it.storage_end) :
    it.dec = ⟨(it.current + (it.storage_end - 1)) % it.storage_end, 0, it.storage_end⟩ := by
  obtain ⟨c, sb, se⟩ := it
  simp only at hsb hse hc
  subst hsb
  unfold Iterator.dec
  by_cases hcase : c ≤ 0
  · have h0 : c = 0 := by omega
    simp [hcase, h0, Nat.mod_eq_of_lt (by omega : se - 1 < se)]
  · have h1 : c + (se - 1) = (c - 1) + se := by omega
    simp [hcase, h1, Nat.add_mod_right, Nat.mod_eq_of_lt (by omega : c - 1 < se)]

/-- Advancing k steps from a position inside the storage region lands
on the position plus k, modulo the storage length. -/
theorem Iterator.advance_spec (it : Iterator) (hsb : it.storage_begin = 0)
    (hc : it.current < it.storage_end) (k : Nat) :
    it.advance k = ⟨(it.current + k) % it.storage_end, 0, it.storage_end⟩ := by
  have hse : 0 < it.storage_end := Nat.lt_of_le_of_lt (Nat.zero_le _) hc
  induction k with
  | zero =>
    simp only [Iterator.advance]
    obtain ⟨c, sb, se⟩ := it
    simp only at hsb hc
    subst hsb
    simp [Nat.mod_eq_of_lt hc]
  | succ k ih =>
    simp only [Iterator.advance, ih]
    rw [Iterator.inc_spec _ rfl (Nat.mod_lt _ hse)]
    have harith : it.current + k + 1 = it.current + (k + 1) := by omega
    simp [Nat.mod_add_mod, harith]

/-- Retreating at least one step from a position at or inside the
storage region lands on the position plus k copies of the storage
length minus one, modulo the storage length. -/
theorem Iterator.retreat_spec (it : Iterator) (hsb : it.storage_begin = 0)
    (hse : 0 < it.storage_end) (hc : it.current ≤ it.storage_end) (k : Nat) :
    it.retreat (k + 1) =
      ⟨(it.current + (it.storage_end - 1) * (k + 1)) % it.storage_end, 0, it.storage_end⟩ := by
  induction k with
  | zero =>
    simp only [Iterator.retreat]
    rw [Iterator.dec_spec _ hsb hse hc]
    simp
  | succ k ih =>
    show (it.retreat (k + 1)).dec = _
    rw [ih]
    rw [Iterator.dec_spec
      ⟨(it.current + (it.storage_end - 1) * (k + 1)) % it.storage_end, 0, it.storage_end⟩
      rfl hse (Nat.le_of_lt (Nat.mod_lt _ hse))]
    have harith : it.current + (it.storage_end - 1) * (k + 1) + (it.storage_end - 1)
        = it.current + (it.storage_end - 1) * (k + 1 + 1) := by ring
    simp [Nat.mod_add_mod, harith]

namespace DVector

variable {T : Type}

/-- The unchecked index computation equals lookup at begin plus x
modulo the storage length, under the data-model invariants relating
the bounds and the size. -/
theorem referenceOp_mod (v : DVector T) (i : Nat)
    (h1 : v.beginP < v.slots.length) (h2 : v.endP ≤ v.slots.length)
    (h3 : v.size < v.slots.length)
    (h4 : v.beginP + v.size = v.endP ∨ v.beginP + v.size = v.slots.length + v.endP)
    (hi : i < v.size) :
    referenceOp v i = v.slots.getD ((v.beginP + i) % v.slots.length) none := by
  unfold referenceOp
  rcases h4 with h4 | h4
  · have hb : ¬ (v.beginP > v.endP ∧ v.beginP + i ≥ v.slots.length) := by
      intro hcontra
      omega
    rw [if_neg hb, Nat.mod_eq_of_lt (by omega : v.beginP + i < v.slots.length)]
  · by_cases hcross : v.beginP + i ≥ v.slots.length
    · rw [if_pos ⟨by omega, hcross⟩, Nat.mod_eq_sub_mod hcross,
        Nat.mod_eq_of_lt (by omega : v.beginP + i - v.slots.length < v.slots.length)]
    · rw [if_neg (fun hcontra => hcross hcontra.2),
        Nat.mod_eq_of_lt (by omega : v.beginP + i < v.slots.length)]

/-- The insertion half of a push never changes the capacity member. -/
theorem pushAt_capacity (createOk : Bool) (a : Alloc) (v : DVector T) (val : T) (w : At) :
    (pushAt createOk a v val w).2.1.capacity = v.capacity := by
  cases w <;> cases createOk <;> simp [pushAt]

/-- The unchecked pop never changes the capacity member. -/
theorem popDir_capacity (v : DVector T) (w : At) :
    (popDir v w).capacity = v.capacity := by
  cases w <;> simp [popDir]

/-- The checked pop_back never changes the capacity member. -/
theorem pop_back_capacity (v : DVector T) :
    (pop_back v).1.capacity = v.capacity := by
  unfold pop_back
  split
  · rfl
  · exact popDir_capacity v At.back

/-- The pop loop of resize never changes the capacity member. -/
theorem popBackN_capacity (a : Alloc) (v : DVector T) (k : Nat) :
    (popBackN a v k).2.1.capacity = v.capacity := by
  induction k generalizing a v with
  | zero => rfl
  | succ k ih =>
    show (match pop_back v with
      | (v1, some e) => (a, v1, some e)
      | (v1, none) => popBackN a v1 k).2.1.capacity = v.capacity
    rcases hp : pop_back v with ⟨v1, e1⟩
    have hcap : v1.capacity = v.capacity := by
      have := pop_back_capacity v
      rw [hp] at this
      exact this
    cases e1 <;> simp [ih, hcap]

end DVector

/-! The claim theorems. -/

/-- C1: if the allocator's allocate call throws during a growth
triggered by any push, reserve, or resize, the container state (size,
capacity, bounds and every slot) is returned unchanged and the
bad_alloc failure propagates to the caller. -/
theorem allocFailureLeavesStateUnchanged {T : Type} [Inhabited T]
    (a : Alloc) (v : DVector T) (val : T) (n : Nat)
    (hfail : a.fails (a.calls + a.failed) = true) :
    (v.size = v.capacity →
      DVector.push_back a v val = ({ a with failed := a.failed + 1 }, v, some Err.badAlloc) ∧
      DVector.push_front a v val = ({ a with failed := a.failed + 1 }, v, some Err.badAlloc)) ∧
    (v.capacity < n →
      DVector.reserve a v n = ({ a with failed := a.failed + 1 }, v, some Err.badAlloc) ∧
      DVector.resize a v n = ({ a with failed := a.failed + 1 }, v, some Err.badAlloc)) := by
  have hre : ∀ m, DVector.reallocate a v m
      = ({ a with failed := a.failed + 1 }, v, some Err.badAlloc) := by
    intro m
    unfold DVector.reallocate Alloc.allocate
    simp [hfail]
  constructor
  · intro h
    constructor <;>
      simp [DVector.push_back, DVector.push_front, DVector.pushDir, h, hre]
  · intro h
    constructor
    · simp [DVector.reserve, h, hre]
    · simp [DVector.resize, h, hre]

/-- C1 witness: at a concrete failing allocator and a full (empty,
capacity zero) container, the failed push and the failed reserve leave
the container in its exact prior state and surface the error. -/
theorem allocFailureLeavesStateUnchanged_witness :
    DVector.push_back failAlloc (dvNew (T := Nat)) 0
      = ({ failAlloc with failed := failAlloc.failed + 1 }, dvNew, some Err.badAlloc) ∧
    DVector.reserve failAlloc (dvNew (T := Nat)) 1
      = ({ failAlloc with failed := failAlloc.failed + 1 }, dvNew, some Err.badAlloc) :=
  ⟨((allocFailureLeavesStateUnchanged failAlloc dvNew 0 1 rfl).1 rfl).1,
   ((allocFailureLeavesStateUnchanged failAlloc dvNew 0 1 rfl).2 (by decide)).1⟩

/-- C2: the claim says clear leaves the container empty with size zero.
The code destroys the elements and keeps the capacity, but never resets
the size member (nor begin or end), contradicting the claim and the
doc comment of clear itself: after clear on a one-element container,
size still returns 1 while every slot is destroyed. -/
theorem clearKeepsSizeBug :
    (DVector.clear dvOne).size = 1 ∧
    (DVector.clear dvOne).capacity = dvOne.capacity ∧
    (∀ p, p < (DVector.clear dvOne).slots.length →
      (DVector.clear dvOne).slots.getD p none = none) := by
  decide

/-- C3: the claim says resize(n) makes size equal n, default-constructs
the delta when growing and pops from the back when shrinking.  The code
never assigns the size member, so after resize(5) on an empty container
size is still 0; and because diff is unsigned, resize(1) on a
two-element container takes the construct branch (no pop runs, no error
is raised) and size stays 2. -/
theorem resizeSizeBug :
    (DVector.resize okAlloc (dvNew (T := Nat)) 5).2.2 = none ∧
    (DVector.resize okAlloc (dvNew (T := Nat)) 5).2.1.size = 0 ∧
    (DVector.resize okAlloc dvTwo 1).2.2 = none ∧
    (DVector.resize okAlloc dvTwo 1).2.1.size = 2 := by
  decide

/-- C4: the claimed invariants (size bounded by capacity; exactly the
logical region constructed; null storage when capacity is zero) do not
survive every public operation: after the public operation clear on a
one-element container the logical region is still nonempty but its
slot is destroyed, so the constructed-exactly-the-region invariant is
violated. -/
theorem invariantBrokenByClear : ¬ DVector.DVInv (DVector.clear dvOne) := by
  decide

/-- C5 counterexample: the claim says the first growth from capacity 0
always yields capacity 10 and every later growth at least doubles.
A reserve-triggered first growth to 5 yields capacity 5, and a
reserve-triggered growth from capacity 10 to 11 yields 11, less than
double. -/
theorem growthBaselineCounterexample :
    (DVector.reserve okAlloc (dvNew (T := Nat)) 5).2.1.capacity = 5 ∧
    (DVector.reserve okAlloc (dvNew (T := Nat)) 5).2.1.capacity ≠ 10 ∧
    dvOne.capacity = 10 ∧
    (DVector.reserve okAlloc dvOne 11).2.1.capacity = 11 ∧
    (DVector.reserve okAlloc dvOne 11).2.1.capacity < 2 * dvOne.capacity := by
  decide

/-- C5 amended: push-triggered growth sets capacity to 10 on first
growth from capacity 0 and exactly doubles it otherwise; growth
triggered by reserve or resize sets capacity to exactly the requested
amount, which can be any value above the current capacity (in
particular below 10, or below double). -/
theorem growthAmended {T : Type} [Inhabited T] (a : Alloc) (v : DVector T) (val : T) (n : Nat)
    (hok : a.fails (a.calls + a.failed) = false) :
    (v.size = v.capacity →
      (DVector.push_back a v val).2.1.capacity
        = (if v.capacity = 0 then 10 else v.capacity * 2) ∧
      (DVector.push_front a v val).2.1.capacity
        = (if v.capacity = 0 then 10 else v.capacity * 2)) ∧
    (v.capacity < n →
      (DVector.reserve a v n).2.1.capacity = n ∧
      (DVector.resize a v n).2.1.capacity = n) := by
  have hreCap : ∀ m, (DVector.reallocate a v m).2.1.capacity = m := by
    intro m
    unfold DVector.reallocate Alloc.allocate
    simp [hok]
  have hreErr : ∀ m, (DVector.reallocate a v m).2.2 = none := by
    intro m
    unfold DVector.reallocate Alloc.allocate
    simp [hok]
  have hpush : ∀ w, (DVector.pushDir true a v val w).2.1.capacity
      = (if v.size = v.capacity
         then (if v.capacity = 0 then 10 else v.capacity * 2)
         else v.capacity) := by
    intro w
    unfold DVector.pushDir
    by_cases h : v.size = v.capacity
    · rw [if_pos h, if_pos h]
      rcases hred : DVector.reallocate a v (if v.capacity = 0 then 10 else v.capacity * 2)
        with ⟨a1, v1, e1⟩
      have he : e1 = none := by
        have := hreErr (if v.capacity = 0 then 10 else v.capacity * 2)
        rw [hred] at this
        exact this
      subst he
      show (DVector.pushAt true a1 v1 val w).2.1.capacity = _
      rw [DVector.pushAt_capacity]
      have := hreCap (if v.capacity = 0 then 10 else v.capacity * 2)
      rw [hred] at this
      exact this
    · rw [if_neg h, if_neg h]
      show (DVector.pushAt true a v val w).2.1.capacity = v.capacity
      exact DVector.pushAt_capacity true a v val w
  constructor
  · intro h
    constructor
    · have hb := hpush At.back
      rw [if_pos h] at hb
      exact hb
    · have hf := hpush At.front
      rw [if_pos h] at hf
      exact hf
  · intro h
    constructor
    · unfold DVector.reserve
      rw [if_pos h]
      exact hreCap n
    · unfold DVector.resize
      rw [if_pos h]
      rcases hred : DVector.reallocate a v n with ⟨a1, v1, e1⟩
      have he : e1 = none := by
        have := hreErr n
        rw [hred] at this
        exact this
      subst he
      have hc : v1.capacity = n := by
        have := hreCap n
        rw [hred] at this
        exact this
      show (if (DVector.UINT64 + n - v1.size) % DVector.UINT64 > 0 then
          (a1, { v1 with
                 slots := DVector.constructRange v1.slots v1.endP
                   ((DVector.UINT64 + n - v1.size) % DVector.UINT64),
                 endP := v1.endP + (DVector.UINT64 + n - v1.size) % DVector.UINT64 }, none)
        else
          DVector.popBackN a1 v1
            ((DVector.UINT64 - (DVector.UINT64 + n - v1.size) % DVector.UINT64)
              % DVector.UINT64)).2.1.capacity = n
      by_cases hd : (DVector.UINT64 + n - v1.size) % DVector.UINT64 > 0
      · rw [if_pos hd]
        exact hc
      · rw [if_neg hd, DVector.popBackN_capacity]
        exact hc

/-- C5 amended witness: at a concrete allocator and fresh container,
the push-triggered first growth yields capacity 10 while reserve of 5
yields capacity 5. -/
theorem growthAmended_witness :
    (DVector.push_back okAlloc (dvNew (T := Nat)) 0).2.1.capacity = 10 ∧
    (DVector.reserve okAlloc (dvNew (T := Nat)) 5).2.1.capacity = 5 :=
  ⟨((growthAmended okAlloc (dvNew (T := Nat)) 0 5 rfl).1 rfl).1,
   ((growthAmended okAlloc (dvNew (T := Nat)) 0 5 rfl).2 (by decide)).1⟩

/-- C6: for every container state satisfying the data-model invariants
(begin a valid position inside the storage, end at or inside the
storage end, size below the storage length and consistent with the
possibly wrapping logical region) and every index i below size,
operator[] of i returns the same slot as advancing an iterator from
begin() by i increments, and as retreating an iterator from end() by
size minus i decrements, wraparound included. -/
theorem indexMatchesIteration {T : Type} (v : DVector T) (i : Nat)
    (h1 : v.beginP < v.slots.length) (h2 : v.endP ≤ v.slots.length)
    (h3 : v.size < v.slots.length)
    (h4 : v.beginP + v.size = v.endP ∨ v.beginP + v.size = v.slots.length + v.endP)
    (hi : i < v.size) :
    DVector.referenceOp v i
      = v.slots.getD (((DVector.beginIt v).advance i).current) none ∧
    DVector.referenceOp v i
      = v.slots.getD (((DVector.endIt v).retreat (v.size - i)).current) none := by
  have hL : 0 < v.slots.length := Nat.lt_of_le_of_lt (Nat.zero_le _) h1
  have hbase := DVector.referenceOp_mod v i h1 h2 h3 h4 hi
  constructor
  · rw [Iterator.advance_spec (DVector.beginIt v) rfl h1 i]
    exact hbase
  · obtain ⟨k, hk⟩ : ∃ k, v.size - i = k + 1 := ⟨v.size - i - 1, by omega⟩
    rw [hk, Iterator.retreat_spec (DVector.endIt v) rfl hL h2 k]
    show DVector.referenceOp v i
      = v.slots.getD ((v.endP + (v.slots.length - 1) * (k + 1)) % v.slots.length) none
    have hmod : (v.endP + (v.slots.length - 1) * (k + 1)) % v.slots.length
        = (v.beginP + i) % v.slots.length := by
      have key : (v.endP + (v.slots.length - 1) * (k + 1) + (k + 1)) % v.slots.length
          = (v.beginP + i + (k + 1)) % v.slots.length := by
        have e1 : v.endP + (v.slots.length - 1) * (k + 1) + (k + 1)
            = v.endP + v.slots.length * (k + 1) := by
          have e0 : (v.slots.length - 1) * (k + 1) + (k + 1)
              = v.slots.length * (k + 1) := by
            rw [← Nat.succ_mul, Nat.succ_eq_add_one, Nat.sub_add_cancel hL]
          omega
        have e2 : v.beginP + i + (k + 1) = v.beginP + v.size := by omega
        rw [e1, e2, Nat.add_mul_mod_self_left]
        rcases h4 with h4 | h4
        · rw [h4]
        · rw [h4, Nat.add_mod_left]
      exact Nat.ModEq.add_right_cancel' (k + 1) key
    rw [hmod]
    exact hbase

/-- C6 witness: in the concrete wrapped container dvWrap (begin 10,
end 2 in an 11-slot block) indexing at 1 agrees with one increment
from begin() and with two decrements from end(). -/
theorem indexMatchesIteration_witness :
    DVector.referenceOp dvWrap 1
      = dvWrap.slots.getD (((DVector.beginIt dvWrap).advance 1).current) none ∧
    DVector.referenceOp dvWrap 1
      = dvWrap.slots.getD (((DVector.endIt dvWrap).retreat (dvWrap.size - 1)).current) none :=
  indexMatchesIteration dvWrap 1 (by decide) (by decide) (by decide) (by decide) (by decide)

/-- C7: front, back, pop_front and pop_back on an empty container
signal the defined empty-container error and leave the container
unchanged; on a non-empty container none of them signals it. -/
theorem emptyAccessChecked {T : Type} (v : DVector T) :
    (v.size = 0 →
      DVector.front v = Except.error Err.emptyVec ∧
      DVector.back v = Except.error Err.emptyVec ∧
      DVector.pop_front v = (v, some Err.emptyVec) ∧
      DVector.pop_back v = (v, some Err.emptyVec)) ∧
    (v.size ≠ 0 →
      (∃ x, DVector.front v = Except.ok x) ∧
      (∃ x, DVector.back v = Except.ok x) ∧
      (DVector.pop_front v).2 = none ∧
      (DVector.pop_back v).2 = none) := by
  constructor <;> intro h <;>
    simp [DVector.front, DVector.back, DVector.pop_front, DVector.pop_back, h]

/-- C7 witness: empty-container accesses error on the fresh container
and succeed on the one-element container. -/
theorem emptyAccessChecked_witness :
    DVector.front (dvNew (T := Nat)) = Except.error Err.emptyVec ∧
    (DVector.pop_front dvOne).2 = none :=
  ⟨((emptyAccessChecked (dvNew (T := Nat))).1 rfl).1,
   ((emptyAccessChecked dvOne).2 (by decide)).2.2.1⟩

/-- C8 counterexample: the claim says no allocation or deallocation
occurs during move assignment; but move assignment onto a destination
that owns storage calls deallocate once (as the source doc comment of
the move-assignment operator itself states). -/
theorem moveAssignDeallocCounterexample :
    (DVector.moveAssign okAlloc dvOne (dvNew (T := Nat))).1.frees = 1 ∧
    (DVector.moveAssign okAlloc dvOne (dvNew (T := Nat))).1.frees ≠ okAlloc.frees := by
  decide

/-- C8 amended: move construction transfers the six members with no
allocator call at all and leaves the source in the default state; move
assignment transfers the members and empties the source the same way
and performs no allocation, but first deallocates the destination's
previously owned storage, exactly one deallocate call when the
destination was allocated and none otherwise. -/
theorem moveTransferAmended {T : Type} (a : Alloc) (v o : DVector T) :
    DVector.moveCtor o = (o, dvNew) ∧
    DVector.moveAssign a v o
      = ({ a with frees := a.frees + (if v.allocated then 1 else 0) }, o, dvNew) := by
  refine ⟨rfl, ?_⟩
  obtain ⟨f, c, fr, fd⟩ := a
  unfold DVector.moveAssign DVector.deallocateOp
  by_cases hv : v.allocated <;> simp [hv]

/-- C9: when building the temporary copy inside copy assignment fails,
either in the allocation of the reserve or in some element's copy
construction, the failure propagates and the destination container is
returned exactly as it was, because the swap happens only after the
copy has fully succeeded. -/
theorem copyAssignStrongGuarantee {T : Type} [Inhabited T] (ec : Nat → Bool) (a : Alloc)
    (v o : DVector T) (e : Err)
    (h : (DVector.copyCtor ec a o).2.2 = some e) :
    DVector.copyAssign ec a v o = ((DVector.copyCtor ec a o).1, v, some e) := by
  unfold DVector.copyAssign
  rcases hcc : DVector.copyCtor ec a o with ⟨a1, tmp, e1⟩
  rw [hcc] at h
  simp only at h
  subst h
  rfl

/-- C9 witness: with a failing allocator the copy constructor fails in
reserve, and with a failing element copy it fails in push_back; in both
cases copy assignment onto the fresh container surfaces the error and
returns the destination unchanged. -/
theorem copyAssignStrongGuarantee_witness :
    DVector.copyAssign (fun _ => false) failAlloc (dvNew (T := Nat)) dvOne
      = ((DVector.copyCtor (fun _ => false) failAlloc dvOne).1, dvNew, some Err.badAlloc) ∧
    DVector.copyAssign (fun _ => true) okAlloc (dvNew (T := Nat)) dvOne
      = ((DVector.copyCtor (fun _ => true) okAlloc dvOne).1, dvNew, some Err.elemCopy) :=
  ⟨copyAssignStrongGuarantee (fun _ => false) failAlloc dvNew dvOne Err.badAlloc (by decide),
   copyAssignStrongGuarantee (fun _ => true) okAlloc dvNew dvOne Err.elemCopy (by decide)⟩

/-- C10: for every iterator whose current position lies inside the
storage region, increment and decrement are mutually inverse,
wraparound cases included. -/
theorem iterIncDecInverse (it : Iterator) (h1 : it.storage_begin ≤ it.current)
    (h2 : it.current < it.storage_end) :
    (it.inc).dec = it ∧ (it.dec).inc = it := by
  obtain ⟨c, sb, se⟩ := it
  simp only at h1 h2
  constructor
  · by_cases hc : c + 1 ≥ se
    · have hse1 : se - 1 = c := by omega
      simp [Iterator.inc, Iterator.dec, hc, hse1]
    · have hnb : ¬ (c + 1 ≤ sb) := by omega
      simp [Iterator.inc, Iterator.dec, hc, hnb]
  · by_cases hc : c ≤ sb
    · have hcb : c = sb := by omega
      have hw : se - 1 + 1 ≥ se := by omega
      simp [Iterator.inc, Iterator.dec, hc, hw, hcb]
    · have hw : ¬ (c - 1 + 1 ≥ se) := by omega
      have hc1 : c - 1 + 1 = c := by omega
      simp [Iterator.inc, Iterator.dec, hc, hw, hc1]
      omega

/-- C10 witness: a concrete iterator at position 2 of a 4-slot block. -/
theorem iterIncDecInverse_witness :
    ((Iterator.mk 2 0 4).inc).dec = Iterator.mk 2 0 4 ∧
    ((Iterator.mk 2 0 4).dec).inc = Iterator.mk 2 0 4 :=
  iterIncDecInverse ⟨2, 0, 4⟩ (by decide) (by decide)
